import Mathlib

/-!
Shallow embedding of the multi-task training orchestrator in
`pl_training.py` (class `PhantasmLight`), together with theorems settling
the specification claims about it.

Modelling conventions:
* tensors are lists of rationals (`List ℚ` for 1-D, `List (List ℚ)` for
  2-D, `List (List (List ℚ))` for the encoder's `[batch, seq, hidden]`
  last hidden state); exact arithmetic over ℚ stands for real arithmetic;
* `torch.mean` over a 1-D tensor is `pyMean` (sum divided by length);
* Python dictionaries that the orchestrator iterates over are association
  lists (`List (String × _)`), preserving iteration order;
* Python exceptions (`KeyError` from `self.heads[name]` or
  `self.task_dict[name]`, `RuntimeError` from `torch.cat([])`, and a batch
  payload not matching the task type's shape) make a function return
  `none`;
* the task registry (`tasks.TaskFamily`, out of scope in the source) is a
  record carrying exactly the fields the orchestrator reads: `type`
  (a string), `multi_label`, `ctrl_token`, `head`, and the loss callable.
  The single polymorphic loss callable of a task is represented by the
  typed field matching the shape it is invoked at in `calc_loss`
  (triplet losses map three `[batch, hidden]` embeddings to a `[batch]`
  per-example tensor; classification losses map logits and labels to
  `[batch]`, or to `[batch, num_labels]` when `multi_label` is set).
-/

/-- Mean of a 1-D tensor, `torch.mean` on nonempty input (division by zero
yields the junk value 0 on the empty tensor, where torch gives NaN). -/
def pyMean (l : List ℚ) : ℚ := l.sum / (l.length : ℚ)

/-- Model of `torch.mean(t, dim=1)` on a `[batch, num_labels]` tensor:
one mean per row. -/
def torchMeanDim1 (t : List (List ℚ)) : List ℚ := t.map pyMean

/-- Python truthiness of an optional string (`not task.ctrl_token` in
line 99): `None` and the empty string are falsy. -/
def pyTruthyStrOpt : Option String → Bool
  | none => false
  | some s => !decide (s = "")

/-- TaskFamily descriptor: the fields of `tasks.TaskFamily` that
`pl_training.py` reads. -/
structure TaskFamily where
  type : String
  multi_label : Bool
  ctrl_token : Option String
  head : Option (List (List ℚ) → List (List ℚ))
  lossTriplet : List (List ℚ) → List (List ℚ) → List (List ℚ) → List ℚ
  lossClf : List (List ℚ) → List (List ℚ) → List ℚ
  lossClfML : List (List ℚ) → List (List ℚ) → List (List ℚ)

/-- One task's sub-batch inside a multi-task batch: either
`((query, pos, neg),)` token tensors (ir/triplet tasks) or
`(inputs, labels)` (classification tasks). -/
inductive Payload where
  | triplet (q p n : List (List Nat))
  | clf (x : List (List Nat)) (y : List (List ℚ))

/-- The state of `PhantasmLight` that `calc_loss` reads: the task
registry, the classification-head dictionary, the shared encoder
(an opaque map from a batch of token-id sequences to the last-layer
hidden states `[batch, seq, hidden]`), and the `use_ctrl_tokens`
constructor flag. -/
structure Model where
  task_dict : List (String × TaskFamily)
  heads : List (String × (List (List ℚ) → List (List ℚ)))
  encoder : List (List Nat) → List (List (List ℚ))
  use_ctrl_tokens : Bool

/-- Python dictionary access `d[k]` on a string-keyed dictionary
(association list): `none` models `KeyError`. -/
def pyDictGet {β : Type} : List (String × β) → String → Option β
  | [], _ => none
  | (k, v) :: rest, name => if name = k then some v else pyDictGet rest name

/-- `self.heads = ModuleDict({t.name: t.head for t in task_dict.values()
if t.head})` (lines 36–38): the sub-dictionary of tasks that own a head,
keyed by task name. -/
def mkHeads (task_dict : List (String × TaskFamily)) :
    List (String × (List (List ℚ) → List (List ℚ))) :=
  task_dict.filterMap (fun nt => nt.2.head.map (fun h => (nt.1, h)))

/-- `forward` (lines 60–62): run the encoder once and select the
last-layer hidden-state vector at position `token_idx` of each example. -/
def forward (encoder : List (List Nat) → List (List (List ℚ)))
    (x : List (List Nat)) (token_idx : Nat) : List (List ℚ) :=
  let embedding := encoder x
  embedding.map (fun hs => hs.getD token_idx [])

/-- Body of the per-task loop of `calc_loss` (lines 98–110): look the task
up, pick the encoding position from the control token, dispatch on the
task type, and produce the per-example loss tensor.  `none` models an
exception (missing registry or head entry, payload shape mismatch). -/
def taskStep (m : Model) (name : String) (b : Payload) : Option (List ℚ) :=
  match pyDictGet m.task_dict name with
  | none => none
  | some task =>
    let idx := if pyTruthyStrOpt task.ctrl_token then 1 else 0
    if task.type ≠ "classification" then
      match b with
      | .triplet q p n =>
        let query_emb := forward m.encoder q idx
        let pos_emb := forward m.encoder p idx
        let neg_emb := forward m.encoder n idx
        some (task.lossTriplet query_emb pos_emb neg_emb)
      | .clf _ _ => none
    else
      match b with
      | .clf x y =>
        let encoding := forward m.encoder x idx
        match pyDictGet m.heads name with
        | none => none
        | some head =>
          let logits := head encoding
          if task.multi_label then
            some (torchMeanDim1 (task.lossClfML logits y))
          else
            some (task.lossClf logits y)
      | .triplet _ _ _ => none

/-- The loop of `calc_loss` (lines 95–112): accumulate the list of raw
per-example loss tensors in batch-iteration order, and the per-task mean
losses keyed by task name. -/
def calcLossSteps (m : Model) :
    List (String × Payload) → Option (List (List ℚ) × List (String × ℚ))
  | [] => some ([], [])
  | (name, b) :: rest =>
    match taskStep m name b with
    | none => none
    | some curr_loss =>
      match calcLossSteps m rest with
      | none => none
      | some (losses, loss_per_task) =>
        some (curr_loss :: losses, (name, pyMean curr_loss) :: loss_per_task)

/-- `calc_loss` (lines 94–114): the overall step loss is
`torch.mean(torch.cat(losses))`; `torch.cat` on an empty list raises, so
an empty batch yields `none`. -/
def calc_loss (m : Model) (train_batch : List (String × Payload)) :
    Option (ℚ × List (String × ℚ)) :=
  match calcLossSteps m train_batch with
  | none => none
  | some (losses, loss_per_task) =>
    if losses.isEmpty then none
    else some (pyMean losses.flatten, loss_per_task)


/-! ### Control-token vocabulary extension (lines 45–56) -/

/-- The tokenizer state that the vocabulary extension reads and writes:
the vocabulary (token id = list index) and the id of the start-of-sequence
(cls) token. -/
structure Tokenizer where
  vocab : List String
  cls_token_id : Nat

/-- `set([t.ctrl_token for t in self.task_dict.values() if t.ctrl_token])`
(line 47): the distinct truthy control tokens of the registered tasks. -/
def collectCtrlTokens (tasks : List TaskFamily) : List String :=
  ((tasks.filterMap (fun t => t.ctrl_token)).filter
    (fun s => !decide (s = ""))).dedup

/-- `tokenizer.add_special_tokens({'additional_special_tokens': ts})`
(line 51): append the tokens not already in the vocabulary and return the
count of newly added ids. -/
def add_special_tokens (tok : Tokenizer) (ts : List String) :
    Tokenizer × Nat :=
  let newToks := ts.filter (fun t => !decide (t ∈ tok.vocab))
  ({ tok with vocab := tok.vocab ++ newToks }, newToks.length)

/-- `encoder.resize_token_embeddings(n)` (line 54): keep the first `n`
rows of the embedding matrix and append freshly initialized rows up to
`n` (their initial content `fresh` is irrelevant here: the caller
overwrites them). -/
def resize_token_embeddings (emb : List (List ℚ)) (n : Nat)
    (fresh : List ℚ) : List (List ℚ) :=
  emb.take n ++ List.replicate (n - emb.length) fresh

/-- The slice assignment `weight[-k:, :] = row` (lines 55–56): overwrite
the last `k` rows with a broadcast copy of `row`. -/
def setLastRows (emb : List (List ℚ)) (k : Nat) (row : List ℚ) :
    List (List ℚ) :=
  emb.take (emb.length - k) ++ List.replicate (min k emb.length) row

/-- Control-token vocabulary extension, the `use_ctrl_tokens` block of
`__init__` (lines 45–56): register the distinct control tokens as
additional special tokens and, if any ids were newly added, resize the
embedding matrix and set the new rows to the cls token's row (read from
the resized matrix at `tokenizer.cls_token_id`). -/
def extend_vocab (use_ctrl_tokens : Bool) (tasks : List TaskFamily)
    (tok : Tokenizer) (emb : List (List ℚ)) (fresh : List ℚ) :
    Tokenizer × List (List ℚ) :=
  if use_ctrl_tokens then
    let spl_ctrl_tokens := collectCtrlTokens tasks
    if spl_ctrl_tokens.isEmpty then (tok, emb)
    else
      let res := add_special_tokens tok spl_ctrl_tokens
      let num_added_toks := res.2
      if num_added_toks = 0 then (res.1, emb)
      else
        let emb2 := resize_token_embeddings emb res.1.vocab.length fresh
        let cls_row := emb2.getD tok.cls_token_id []
        (res.1, setLastRows emb2 num_added_toks cls_row)
  else (tok, emb)

/-! ### Optimizer parameter grouping (lines 64–77) -/

/-- Does `pat` match at the head of `s`? (auxiliary for substring
containment). -/
def strHeadMatch : List Char → List Char → Bool
  | [], _ => true
  | _ :: _, [] => false
  | a :: as, b :: bs => a == b && strHeadMatch as bs

/-- Does `pat` occur as a contiguous run anywhere in `s`? -/
def strScan (pat : List Char) : List Char → Bool
  | [] => strHeadMatch pat []
  | c :: cs => strHeadMatch pat (c :: cs) || strScan pat cs

/-- Python substring test `sub in s`. -/
def pyInStr (sub s : String) : Bool := strScan sub.toList s.toList

/-- `no_decay = ["bias", "LayerNorm.weight"]` (line 67). -/
def no_decay : List String := ["bias", "LayerNorm.weight"]

/-- One optimizer parameter group: the parameters it holds (modelled as
`(name, parameter-identity)` pairs of `named_parameters()`) and its weight
decay. -/
structure ParamGroup where
  params : List Nat
  weight_decay : ℚ

/-- `optimizer_grouped_parameters` (lines 68–77): group 1 holds the
parameters whose name contains no entry of `no_decay`, group 2 the rest;
both groups are built with `weight_decay = 0.0`. -/
def optimizer_grouped_parameters (named_parameters : List (String × Nat)) :
    List ParamGroup :=
  [ { params := (named_parameters.filter
        (fun np => !(no_decay.any (fun nd => pyInStr nd np.1)))).map Prod.snd,
      weight_decay := 0 },
    { params := (named_parameters.filter
        (fun np => no_decay.any (fun nd => pyInStr nd np.1))).map Prod.snd,
      weight_decay := 0 } ]

/-! ### Checkpoint persistence hook (lines 187–191) -/

/-- The logger attributes the checkpoint hook reads. -/
structure LoggerInfo where
  save_dir : String
  name : String
  version : String

/-- One export effect of the checkpoint hook: which artifact is written
and the directory it is written to. -/
inductive ExportKind where
  | encoderWeights
  | tokenizerConfig
  | tokenizerVocabulary
deriving DecidableEq

/-- `on_save_checkpoint` (lines 187–191), as the ordered trace of the
filesystem export effects it performs: `encoder.save_pretrained`,
`tokenizer.save_pretrained`, `tokenizer.save_vocabulary`, each at an
f-string path built from the logger's save directory, name and
version. -/
def on_save_checkpoint (logger : LoggerInfo) : List (ExportKind × String) :=
  [ (.encoderWeights,
      logger.save_dir ++ "/" ++ logger.name ++ "/" ++ logger.version ++
        "/checkpoints/model/"),
    (.tokenizerConfig,
      logger.save_dir ++ "/" ++ logger.name ++ "/" ++ logger.version ++
        "/checkpoints/tokenizer/"),
    (.tokenizerVocabulary,
      logger.save_dir ++ "/" ++ logger.name ++ "/" ++ logger.version ++
        "/checkpoints/tokenizer/") ]

/-- The deterministic checkpoint directory for a run:
`<save_dir>/<run_name>/<run_version>/checkpoints/`. -/
def ckptDir (logger : LoggerInfo) : String :=
  logger.save_dir ++ "/" ++ logger.name ++ "/" ++ logger.version ++
    "/checkpoints/"

/-- The `use_ctrl_tokens` argument the driver passes at line 213
(`PhantasmLight(batch_size=16, use_ctrl_tokens=False)`). -/
def main_use_ctrl_tokens : Bool := false

/-! ### Concrete instances used by witnesses and counterexamples -/

/-- Toy encoder: hidden size 1, the hidden state at a position is the
token id at that position. -/
def exEncoder : List (List Nat) → List (List (List ℚ)) :=
  fun x => x.map (fun seq => seq.map (fun t => [(t : ℚ)]))

/-- Example retrieval task with a control token and no head. -/
def exTaskIR : TaskFamily :=
  { type := "ir", multi_label := false, ctrl_token := some "[A]",
    head := none,
    lossTriplet := fun q _ _ => q.map (fun v => v.sum),
    lossClf := fun _ _ => [], lossClfML := fun _ _ => [] }

/-- Example single-label classification task with an identity head. -/
def exTaskClf : TaskFamily :=
  { type := "classification", multi_label := false, ctrl_token := none,
    head := some id,
    lossTriplet := fun _ _ _ => [],
    lossClf := fun logits _ => logits.map (fun r => r.sum + 1),
    lossClfML := fun _ _ => [] }

/-- Example registry with one retrieval and one classification task. -/
def exTaskDict : List (String × TaskFamily) := [("a", exTaskIR), ("b", exTaskClf)]

/-- Example model over `exTaskDict`. -/
def exModel : Model :=
  { task_dict := exTaskDict, heads := mkHeads exTaskDict,
    encoder := exEncoder, use_ctrl_tokens := false }

/-- Example two-task batch for `exModel`. -/
def exBatch : List (String × Payload) :=
  [("a", .triplet [[10, 20]] [[1, 2]] [[3, 4]]), ("b", .clf [[5, 6]] [[0]])]

/-- The batch permuted for the C5 witness: `exBatch` with its two tasks
swapped. -/
def exBatchRev : List (String × Payload) :=
  [("b", .clf [[5, 6]] [[0]]), ("a", .triplet [[10, 20]] [[1, 2]] [[3, 4]])]

/-- Example multi-label classification task (two labels) with an identity
head and a control token. -/
def exTaskML : TaskFamily :=
  { type := "classification", multi_label := true, ctrl_token := some "[M]",
    head := some id,
    lossTriplet := fun _ _ _ => [],
    lossClf := fun _ _ => [],
    lossClfML := fun logits _ => logits.map (fun r => [r.sum, r.sum + 2]) }

/-- Registry holding only the multi-label task. -/
def exDictML : List (String × TaskFamily) := [("m", exTaskML)]

/-- Model over `exDictML`. -/
def exModelML : Model :=
  { task_dict := exDictML, heads := mkHeads exDictML,
    encoder := exEncoder, use_ctrl_tokens := false }

/-- Example classification task that owns no head. -/
def exTaskClfNoHead : TaskFamily :=
  { type := "classification", multi_label := false, ctrl_token := none,
    head := none,
    lossTriplet := fun _ _ _ => [],
    lossClf := fun logits _ => logits.map (fun r => r.sum),
    lossClfML := fun _ _ => [] }

/-- Registry holding only the headless classification task. -/
def exDictNoHead : List (String × TaskFamily) := [("c", exTaskClfNoHead)]

/-- Model over `exDictNoHead`: its head dictionary is empty because the
only task has no head. -/
def exModelNoHead : Model :=
  { task_dict := exDictNoHead, heads := mkHeads exDictNoHead,
    encoder := exEncoder, use_ctrl_tokens := false }

/-- A batch containing the headless classification task with a well-shaped
`(inputs, labels)` payload. -/
def exBatchNoHead : List (String × Payload) := [("c", .clf [[1, 2]] [[0]])]

/-- Pure-representation model: only the retrieval task is registered, so
the classification-head dictionary is empty. -/
def exModelRep : Model :=
  { task_dict := [("a", exTaskIR)], heads := mkHeads [("a", exTaskIR)],
    encoder := exEncoder, use_ctrl_tokens := false }

/-- A batch for `exModelRep` holding only the retrieval task. -/
def exBatchRep : List (String × Payload) :=
  [("a", .triplet [[10, 20]] [[1, 2]] [[3, 4]])]

/-- Example tokenizer: two-token vocabulary, cls token at id 0. -/
def exTok : Tokenizer := { vocab := ["[CLS]", "w"], cls_token_id := 0 }

/-- Example embedding matrix matching `exTok` (hidden size 1). -/
def exEmbMatrix : List (List ℚ) := [[1], [2]]

/-- Example named parameters for the optimizer-grouping witness. -/
def exNamedParams : List (String × Nat) :=
  [("encoder.embeddings.word_embeddings.weight", 0),
   ("encoder.encoder.layer.0.attention.output.dense.bias", 1),
   ("encoder.encoder.layer.0.output.LayerNorm.weight", 2)]

/-! ### Helper lemmas about the loss-aggregation loop -/

/-- Dictionary lookup finds the stored value when keys are unique. -/
theorem pyDictGet_eq_of_mem_of_nodup {β : Type} :
    ∀ {l : List (String × β)} {k : String} {v : β},
    (l.map Prod.fst).Nodup → (k, v) ∈ l → pyDictGet l k = some v
  | (k', v') :: tl, k, v, hnd, hmem => by
    simp only [List.map_cons, List.nodup_cons] at hnd
    rcases List.mem_cons.mp hmem with heq | htl
    · cases heq
      simp [pyDictGet]
    · have hk : k ≠ k' := by
        intro h
        subst h
        exact hnd.1 (List.mem_map.mpr ⟨(k, v), htl, rfl⟩)
      simp only [pyDictGet, if_neg hk]
      exact pyDictGet_eq_of_mem_of_nodup hnd.2 htl

/-- If the loop completes, the accumulated loss tensors and the per-task
record are exactly the per-task results in batch-iteration order. -/
theorem calcLossSteps_some_eq {m : Model} :
    ∀ {batch : List (String × Payload)} {ls : List (List ℚ)}
      {per : List (String × ℚ)},
    calcLossSteps m batch = some (ls, per) →
    ls = batch.map (fun nb => (taskStep m nb.1 nb.2).getD []) ∧
      per = batch.map (fun nb => (nb.1, pyMean ((taskStep m nb.1 nb.2).getD [])))
  | [], ls, per, h => by
    simp only [calcLossSteps, Option.some.injEq, Prod.mk.injEq] at h
    simp [← h.1, ← h.2]
  | (name, b) :: rest, ls, per, h => by
    simp only [calcLossSteps] at h
    cases hstep : taskStep m name b with
    | none => rw [hstep] at h; cases h
    | some curr =>
      rw [hstep] at h
      cases hrest : calcLossSteps m rest with
      | none => rw [hrest] at h; cases h
      | some pr =>
        obtain ⟨losses, perRest⟩ := pr
        rw [hrest] at h
        obtain ⟨ih1, ih2⟩ := calcLossSteps_some_eq hrest
        simp only [Option.some.injEq, Prod.mk.injEq] at h
        obtain ⟨h1, h2⟩ := h
        subst h1 h2
        simp [List.map_cons, ← ih1, ← ih2, hstep]

/-- The loop completes exactly when every task's step completes. -/
theorem calcLossSteps_isSome_iff {m : Model} :
    ∀ {batch : List (String × Payload)},
    (calcLossSteps m batch).isSome ↔
      ∀ nb ∈ batch, (taskStep m nb.1 nb.2).isSome
  | [] => by simp [calcLossSteps]
  | (name, b) :: rest => by
    simp only [calcLossSteps]
    cases hstep : taskStep m name b with
    | none => simp [hstep]
    | some curr =>
      cases hrest : calcLossSteps m rest with
      | none =>
        have := (@calcLossSteps_isSome_iff m rest)
        rw [hrest] at this
        simp only [Option.isSome_none, Bool.false_eq_true, false_iff] at this
        push_neg at this
        obtain ⟨nb, hmem, hns⟩ := this
        simp only [Option.isSome_none, Bool.false_eq_true, false_iff]
        push_neg
        exact ⟨nb, List.mem_cons_of_mem _ hmem, hns⟩
      | some pr =>
        obtain ⟨losses, perRest⟩ := pr
        have := (@calcLossSteps_isSome_iff m rest)
        rw [hrest] at this
        simp only [Option.isSome_some, true_iff] at this
        simp only [Option.isSome_some, true_iff]
        intro nb hmem
        rcases List.mem_cons.mp hmem with heq | htl
        · subst heq; simp [hstep]
        · exact this nb htl

/-! ### Claim theorems: loss aggregation -/

/-- Claim C1: for every multi-task batch that `calc_loss` completes on,
the overall step loss is the mean of the concatenation of all present
tasks' per-example loss tensors, and the per-task mapping sends each task
present in the batch to the mean of that task's per-example loss
tensor. -/
theorem C1_overall_loss_mean_of_concat (m : Model)
    (batch : List (String × Payload)) (L : ℚ) (per : List (String × ℚ))
    (h : calc_loss m batch = some (L, per))
    (hkeys : (batch.map Prod.fst).Nodup) :
    L = pyMean ((batch.map (fun nb => (taskStep m nb.1 nb.2).getD [])).flatten) ∧
    ∀ nb ∈ batch,
      pyDictGet per nb.1 = some (pyMean ((taskStep m nb.1 nb.2).getD [])) := by
  cases hsteps : calcLossSteps m batch with
  | none =>
    simp only [calc_loss, hsteps] at h
    cases h
  | some pr =>
    obtain ⟨ls, perAll⟩ := pr
    simp only [calc_loss, hsteps] at h
    obtain ⟨hls, hper⟩ := calcLossSteps_some_eq hsteps
    by_cases hemp : ls.isEmpty
    · rw [if_pos hemp] at h; cases h
    · rw [if_neg hemp] at h
      simp only [Option.some.injEq, Prod.mk.injEq] at h
      obtain ⟨hL, hp⟩ := h
      subst hp
      constructor
      · rw [← hL, hls]
      · intro nb hmem
        apply pyDictGet_eq_of_mem_of_nodup
        · rw [hper, List.map_map]
          exact hkeys
        · rw [hper]
          exact List.mem_map.mpr ⟨nb, hmem, rfl⟩

/-- Concrete instantiation of `C1_overall_loss_mean_of_concat` on
`exModel` and `exBatch` (aggregate loss 13, task means 20 and 6). -/
theorem C1_overall_loss_mean_of_concat_witness :
    (13 : ℚ) =
      pyMean ((exBatch.map (fun nb => (taskStep exModel nb.1 nb.2).getD [])).flatten) ∧
    ∀ nb ∈ exBatch,
      pyDictGet ([("a", (20 : ℚ)), ("b", (6 : ℚ))] : List (String × ℚ)) nb.1 =
        some (pyMean ((taskStep exModel nb.1 nb.2).getD [])) :=
  C1_overall_loss_mean_of_concat exModel exBatch 13 [("a", 20), ("b", 6)]
    (by norm_num +decide [calc_loss, calcLossSteps, taskStep, exModel, exBatch,
      exTaskDict, exTaskIR, exTaskClf, exEncoder, forward, mkHeads, pyMean,
      torchMeanDim1, pyTruthyStrOpt, pyDictGet])
    (by simp +decide [exBatch])

/-- Claim C5: the aggregate loss of `calc_loss` is invariant under
permutation of the task iteration order of the batch mapping: if the
original batch computes, any re-ordering also computes and yields the
same overall loss (in exact arithmetic). -/
theorem C5_aggregate_loss_perm_invariant (m : Model)
    (b1 b2 : List (String × Payload)) (L1 : ℚ) (per1 : List (String × ℚ))
    (hperm : b1.Perm b2) (h1 : calc_loss m b1 = some (L1, per1)) :
    ∃ L2 per2, calc_loss m b2 = some (L2, per2) ∧ L2 = L1 := by
  cases hsteps1 : calcLossSteps m b1 with
  | none => simp only [calc_loss, hsteps1] at h1; cases h1
  | some pr1 =>
    obtain ⟨ls1, perAll1⟩ := pr1
    simp only [calc_loss, hsteps1] at h1
    by_cases hemp : ls1.isEmpty
    · rw [if_pos hemp] at h1; cases h1
    · rw [if_neg hemp] at h1
      simp only [Option.some.injEq, Prod.mk.injEq] at h1
      obtain ⟨hL1, hp1⟩ := h1
      obtain ⟨hls1, _⟩ := calcLossSteps_some_eq hsteps1
      -- the permuted batch also completes
      have hsome1 : (calcLossSteps m b1).isSome := by rw [hsteps1]; rfl
      have hall1 := calcLossSteps_isSome_iff.mp hsome1
      have hsome2 : (calcLossSteps m b2).isSome :=
        calcLossSteps_isSome_iff.mpr
          (fun nb hmem => hall1 nb (hperm.mem_iff.mpr hmem))
      obtain ⟨pr2, hsteps2⟩ := Option.isSome_iff_exists.mp hsome2
      obtain ⟨ls2, perAll2⟩ := pr2
      obtain ⟨hls2, _⟩ := calcLossSteps_some_eq hsteps2
      -- the second list of loss tensors is nonempty as well
      have hb1 : b1 ≠ [] := by
        intro hb
        subst hb
        rw [hls1] at hemp
        exact hemp rfl
      have hb2 : b2 ≠ [] := by
        intro hb
        subst hb
        exact hb1 (List.Perm.eq_nil hperm)
      have hemp2 : ¬ ls2.isEmpty := by
        rw [hls2]
        cases b2 with
        | nil => exact absurd rfl hb2
        | cons hd tl => simp [List.isEmpty]
      refine ⟨pyMean ls2.flatten, perAll2, ?_, ?_⟩
      · simp only [calc_loss, hsteps2, if_neg hemp2]
      · -- mean over the concatenation is permutation invariant
        have hmaps : (b1.map (fun nb => (taskStep m nb.1 nb.2).getD [])).Perm
            (b2.map (fun nb => (taskStep m nb.1 nb.2).getD [])) :=
          hperm.map _
        have hsum : ls2.flatten.sum = ls1.flatten.sum := by
          rw [hls1, hls2, List.sum_flatten, List.sum_flatten]
          exact (hmaps.map List.sum).sum_eq.symm
        have hlen : ls2.flatten.length = ls1.flatten.length := by
          rw [hls1, hls2, List.length_flatten, List.length_flatten]
          exact (hmaps.map List.length).sum_eq.symm
        rw [← hL1]
        unfold pyMean
        rw [hsum, hlen]

/-- Concrete instantiation of `C5_aggregate_loss_perm_invariant`:
swapping the two tasks of `exBatch` leaves the aggregate loss 13. -/
theorem C5_aggregate_loss_perm_invariant_witness :
    ∃ L2 per2, calc_loss exModel exBatchRev = some (L2, per2) ∧ L2 = 13 :=
  C5_aggregate_loss_perm_invariant exModel exBatch exBatchRev 13
    [("a", 20), ("b", 6)]
    (by simp [exBatch, exBatchRev, List.Perm.swap])
    (by norm_num +decide [calc_loss, calcLossSteps, taskStep, exModel, exBatch,
      exTaskDict, exTaskIR, exTaskClf, exEncoder, forward, mkHeads, pyMean,
      torchMeanDim1, pyTruthyStrOpt, pyDictGet])

/-- Claim C2: `calc_loss` dispatches each task on its declared type:
`ir` and `triplet` tasks take the three-way path (query, positive and
negative encoded independently at the same index, the task loss applied
to the three embeddings), and classification-family tasks (the
`multi_label` flag is how the code represents multi-label classification,
for either value of it) take the single-encoding head/logits path. -/
theorem C2_dispatch_on_task_type (m : Model) (name : String)
    (task : TaskFamily)
    (htask : pyDictGet m.task_dict name = some task) :
    ((task.type = "ir" ∨ task.type = "triplet") →
      ∀ q p n, taskStep m name (.triplet q p n) =
        some (task.lossTriplet
          (forward m.encoder q (if pyTruthyStrOpt task.ctrl_token then 1 else 0))
          (forward m.encoder p (if pyTruthyStrOpt task.ctrl_token then 1 else 0))
          (forward m.encoder n (if pyTruthyStrOpt task.ctrl_token then 1 else 0)))) ∧
    (task.type = "classification" →
      ∀ x y hd, pyDictGet m.heads name = some hd →
        taskStep m name (.clf x y) =
          some (if task.multi_label
            then torchMeanDim1 (task.lossClfML
              (hd (forward m.encoder x
                (if pyTruthyStrOpt task.ctrl_token then 1 else 0))) y)
            else task.lossClf
              (hd (forward m.encoder x
                (if pyTruthyStrOpt task.ctrl_token then 1 else 0))) y)) := by
  constructor
  · intro htype q p n
    have hne : task.type ≠ "classification" := by
      rcases htype with h | h <;> rw [h] <;> decide
    simp only [taskStep, htask, if_pos hne]
  · intro htype x y hd hhead
    have hcl : ¬ task.type ≠ "classification" := not_not_intro htype
    simp only [taskStep, htask, if_neg hcl, hhead]
    cases hml : task.multi_label <;> simp [hml]

/-- Concrete instantiation of `C2_dispatch_on_task_type`: the `ir` task
of `exModel` takes the three-way path on a triplet payload. -/
theorem C2_dispatch_on_task_type_witness :
    taskStep exModel "a" (.triplet [[10, 20]] [[1, 2]] [[3, 4]]) =
      some (exTaskIR.lossTriplet
        (forward exModel.encoder [[10, 20]]
          (if pyTruthyStrOpt exTaskIR.ctrl_token then 1 else 0))
        (forward exModel.encoder [[1, 2]]
          (if pyTruthyStrOpt exTaskIR.ctrl_token then 1 else 0))
        (forward exModel.encoder [[3, 4]]
          (if pyTruthyStrOpt exTaskIR.ctrl_token then 1 else 0))) :=
  (C2_dispatch_on_task_type exModel "a" exTaskIR rfl).1 (Or.inl rfl)
    [[10, 20]] [[1, 2]] [[3, 4]]

/-- Claim C3: with a non-empty set of distinct control tokens, the
vocabulary extension registers every control token on the tokenizer; if
and only if the count of newly added ids is positive it resizes the
embedding matrix to the new tokenizer length and sets each newly added
row exactly equal to the cls token's row; with zero newly added ids the
embedding matrix is untouched. -/
theorem C3_ctrl_token_vocab_extension (tasks : List TaskFamily)
    (tok : Tokenizer) (emb : List (List ℚ)) (fresh : List ℚ)
    (hlen : emb.length = tok.vocab.length)
    (hcls : tok.cls_token_id < emb.length)
    (hne : (collectCtrlTokens tasks).isEmpty = false) :
    (∀ t ∈ collectCtrlTokens tasks,
      t ∈ (extend_vocab true tasks tok emb fresh).1.vocab) ∧
    ((add_special_tokens tok (collectCtrlTokens tasks)).2 = 0 →
      (extend_vocab true tasks tok emb fresh).2 = emb) ∧
    (0 < (add_special_tokens tok (collectCtrlTokens tasks)).2 →
      (extend_vocab true tasks tok emb fresh).2.length =
        (extend_vocab true tasks tok emb fresh).1.vocab.length ∧
      (∀ i, emb.length ≤ i →
        i < (extend_vocab true tasks tok emb fresh).2.length →
        (extend_vocab true tasks tok emb fresh).2.getD i [] =
          emb.getD tok.cls_token_id []) ∧
      (extend_vocab true tasks tok emb fresh).2.length =
        emb.length + (add_special_tokens tok (collectCtrlTokens tasks)).2) := by
  have hvocab1 : ∀ b : List (List ℚ),
      (if (add_special_tokens tok (collectCtrlTokens tasks)).2 = 0
        then ((add_special_tokens tok (collectCtrlTokens tasks)).1, b)
        else ((add_special_tokens tok (collectCtrlTokens tasks)).1, b)).1 =
      (add_special_tokens tok (collectCtrlTokens tasks)).1 := by
    intro b
    split <;> rfl
  -- notation for the pieces
  have hunfold : extend_vocab true tasks tok emb fresh =
      (if (add_special_tokens tok (collectCtrlTokens tasks)).2 = 0 then
        ((add_special_tokens tok (collectCtrlTokens tasks)).1, emb)
      else
        ((add_special_tokens tok (collectCtrlTokens tasks)).1,
          setLastRows
            (resize_token_embeddings emb
              (add_special_tokens tok (collectCtrlTokens tasks)).1.vocab.length
              fresh)
            (add_special_tokens tok (collectCtrlTokens tasks)).2
            ((resize_token_embeddings emb
              (add_special_tokens tok (collectCtrlTokens tasks)).1.vocab.length
              fresh).getD tok.cls_token_id []))) := by
    simp only [extend_vocab, hne, if_true, Bool.false_eq_true, if_false]
  clear hvocab1
  -- abbreviations
  set spl := collectCtrlTokens tasks with hspl
  set newToks := spl.filter (fun t => !decide (t ∈ tok.vocab)) with hnew
  have hfst : (add_special_tokens tok spl).1.vocab = tok.vocab ++ newToks := rfl
  have hsnd : (add_special_tokens tok spl).2 = newToks.length := rfl
  refine ⟨?_, ?_, ?_⟩
  · -- every control token ends up registered
    intro t ht
    rw [hunfold]
    have hmem : t ∈ tok.vocab ++ newToks := by
      by_cases hv : t ∈ tok.vocab
      · exact List.mem_append_left _ hv
      · refine List.mem_append_right _ ?_
        rw [hnew]
        exact List.mem_filter.mpr ⟨ht, by simp [hv]⟩
    split <;> simpa [hfst] using hmem
  · -- zero newly added ids: the embedding matrix is untouched
    intro hk
    rw [hunfold, if_pos hk]
  · -- positive newly added ids: resized and new rows copied from cls
    intro hk
    have hk0 : (add_special_tokens tok spl).2 ≠ 0 := Nat.pos_iff_ne_zero.mp hk
    rw [hunfold, if_neg hk0]
    set k := newToks.length with hkdef
    have hvlen : (add_special_tokens tok spl).1.vocab.length = emb.length + k := by
      rw [hfst, List.length_append, hlen]
    -- the resized matrix is emb with k fresh rows appended
    have hresize : resize_token_embeddings emb
        (add_special_tokens tok spl).1.vocab.length fresh =
        emb ++ List.replicate k fresh := by
      rw [hvlen]
      unfold resize_token_embeddings
      rw [List.take_of_length_le (Nat.le_add_right _ _), Nat.add_sub_cancel_left]
    have hclsrow : (emb ++ List.replicate k fresh).getD tok.cls_token_id [] =
        emb.getD tok.cls_token_id [] :=
      List.getD_append _ _ _ _ hcls
    have hfinal : setLastRows (emb ++ List.replicate k fresh) k
        (emb.getD tok.cls_token_id []) =
        emb ++ List.replicate k (emb.getD tok.cls_token_id []) := by
      unfold setLastRows
      rw [List.length_append, List.length_replicate, Nat.add_sub_cancel,
        Nat.min_eq_left (Nat.le_add_left _ _)]
      congr 1
      exact List.take_left emb (List.replicate k fresh)
    have hsndk : (add_special_tokens tok spl).2 = k := hsnd
    rw [hsndk, hresize, hclsrow, hfinal]
    refine ⟨?_, ?_, ?_⟩
    · rw [List.length_append, List.length_replicate, hvlen]
    · intro i hi hilt
      rw [List.length_append, List.length_replicate] at hilt
      rw [List.getD_append_right _ _ _ _ hi]
      have hlt : i - emb.length < k := by omega
      rw [List.getD_eq_getElem _ _ (by simpa using hlt)]
      simp
    · rw [List.length_append, List.length_replicate]

/-- Concrete instantiation of `C3_ctrl_token_vocab_extension` on the
registry `[exTaskIR]` (control token `"[A]"`), `exTok` and
`exEmbMatrix`. -/
theorem C3_ctrl_token_vocab_extension_witness :
    (∀ t ∈ collectCtrlTokens [exTaskIR],
      t ∈ (extend_vocab true [exTaskIR] exTok exEmbMatrix [0]).1.vocab) ∧
    ((add_special_tokens exTok (collectCtrlTokens [exTaskIR])).2 = 0 →
      (extend_vocab true [exTaskIR] exTok exEmbMatrix [0]).2 = exEmbMatrix) ∧
    (0 < (add_special_tokens exTok (collectCtrlTokens [exTaskIR])).2 →
      (extend_vocab true [exTaskIR] exTok exEmbMatrix [0]).2.length =
        (extend_vocab true [exTaskIR] exTok exEmbMatrix [0]).1.vocab.length ∧
      (∀ i, exEmbMatrix.length ≤ i →
        i < (extend_vocab true [exTaskIR] exTok exEmbMatrix [0]).2.length →
        (extend_vocab true [exTaskIR] exTok exEmbMatrix [0]).2.getD i [] =
          exEmbMatrix.getD exTok.cls_token_id []) ∧
      (extend_vocab true [exTaskIR] exTok exEmbMatrix [0]).2.length =
        exEmbMatrix.length +
          (add_special_tokens exTok (collectCtrlTokens [exTaskIR])).2) :=
  C3_ctrl_token_vocab_extension [exTaskIR] exTok exEmbMatrix [0]
    (by rfl) (by decide) (by decide)

/-- Claim C4 counterexample: on a registry holding a classification task
without a head, `calc_loss` raises (`self.heads[name]` is a `KeyError`)
on a well-shaped batch — it does not complete without error. -/
theorem C4_headless_classification_raises :
    calc_loss exModelNoHead exBatchNoHead = none := by rfl

/-- Claim C4 amended: `calc_loss` applies the head lookup unconditionally
on the classification path, so it completes without error precisely when
every classification-family task in the batch owns a head entry; an empty
classification-head set is tolerated only for batches of
pure-representation (non-classification) tasks. -/
theorem C4_head_lookup_unconditional (m : Model)
    (batch : List (String × Payload)) (hne : batch ≠ [])
    (hok : ∀ nb ∈ batch, ∃ task, pyDictGet m.task_dict nb.1 = some task ∧
      ((task.type ≠ "classification" ∧ ∃ q p n, nb.2 = .triplet q p n) ∨
       (task.type = "classification" ∧ (∃ x y, nb.2 = .clf x y) ∧
        ∃ hd, pyDictGet m.heads nb.1 = some hd))) :
    (calc_loss m batch).isSome := by
  have hsteps : ∀ nb ∈ batch, (taskStep m nb.1 nb.2).isSome := by
    intro nb hmem
    obtain ⟨task, htask, hcase⟩ := hok nb hmem
    rcases hcase with ⟨htype, q, p, n, hpay⟩ | ⟨htype, ⟨x, y, hpay⟩, hd, hhead⟩
    · rw [hpay]
      simp only [taskStep, htask, if_pos htype]
      rfl
    · rw [hpay]
      have hcl : ¬ task.type ≠ "classification" := not_not_intro htype
      simp only [taskStep, htask, if_neg hcl, hhead]
      cases task.multi_label <;> simp
  have hsome := calcLossSteps_isSome_iff.mpr hsteps
  obtain ⟨pr, hpr⟩ := Option.isSome_iff_exists.mp hsome
  obtain ⟨ls, per⟩ := pr
  obtain ⟨hls, _⟩ := calcLossSteps_some_eq hpr
  have hlsne : ¬ ls.isEmpty := by
    rw [hls]
    cases batch with
    | nil => exact absurd rfl hne
    | cons hd tl => simp
  simp only [calc_loss, hpr, if_neg hlsne]
  rfl

/-- Concrete instantiation of `C4_head_lookup_unconditional`: the
pure-representation model with an empty head dictionary completes on a
retrieval-only batch. -/
theorem C4_head_lookup_unconditional_witness :
    (calc_loss exModelRep exBatchRep).isSome :=
  C4_head_lookup_unconditional exModelRep exBatchRep
    (by simp [exBatchRep])
    (by
      intro nb hmem
      simp only [exBatchRep, List.mem_singleton] at hmem
      subst hmem
      exact ⟨exTaskIR, rfl,
        Or.inl ⟨by decide, [[10, 20]], [[1, 2]], [[3, 4]], rfl⟩⟩)

/-- Claim C6: for a multi-label classification task, the `[batch,
num_labels]` per-label loss tensor is reduced by the mean along the label
dimension, so each example's task-level loss is the mean of its per-label
losses. -/
theorem C6_multi_label_mean_along_labels (m : Model) (name : String)
    (task : TaskFamily) (x : List (List Nat)) (y : List (List ℚ))
    (hd : List (List ℚ) → List (List ℚ))
    (htask : pyDictGet m.task_dict name = some task)
    (htype : task.type = "classification")
    (hml : task.multi_label = true)
    (hhead : pyDictGet m.heads name = some hd) :
    taskStep m name (.clf x y) =
      some (torchMeanDim1 (task.lossClfML
        (hd (forward m.encoder x
          (if pyTruthyStrOpt task.ctrl_token then 1 else 0))) y)) ∧
    ∀ i, i < (task.lossClfML
        (hd (forward m.encoder x
          (if pyTruthyStrOpt task.ctrl_token then 1 else 0))) y).length →
      (torchMeanDim1 (task.lossClfML
        (hd (forward m.encoder x
          (if pyTruthyStrOpt task.ctrl_token then 1 else 0))) y)).getD i 0 =
      pyMean ((task.lossClfML
        (hd (forward m.encoder x
          (if pyTruthyStrOpt task.ctrl_token then 1 else 0))) y).getD i []) := by
  constructor
  · have hcl : ¬ task.type ≠ "classification" := not_not_intro htype
    simp only [taskStep, htask, if_neg hcl, hhead, hml, if_true]
  · intro i hi
    unfold torchMeanDim1
    rw [List.getD_eq_getElem _ _ (by simpa using hi), List.getElem_map,
      List.getD_eq_getElem _ _ hi]

/-- Concrete instantiation of `C6_multi_label_mean_along_labels` on the
multi-label model `exModelML`. -/
theorem C6_multi_label_mean_along_labels_witness :
    taskStep exModelML "m" (.clf [[7, 8]] [[0, 0]]) =
      some (torchMeanDim1 (exTaskML.lossClfML
        (id (forward exModelML.encoder [[7, 8]]
          (if pyTruthyStrOpt exTaskML.ctrl_token then 1 else 0))) [[0, 0]])) ∧
    ∀ i, i < (exTaskML.lossClfML
        (id (forward exModelML.encoder [[7, 8]]
          (if pyTruthyStrOpt exTaskML.ctrl_token then 1 else 0))) [[0, 0]]).length →
      (torchMeanDim1 (exTaskML.lossClfML
        (id (forward exModelML.encoder [[7, 8]]
          (if pyTruthyStrOpt exTaskML.ctrl_token then 1 else 0))) [[0, 0]])).getD i 0 =
      pyMean ((exTaskML.lossClfML
        (id (forward exModelML.encoder [[7, 8]]
          (if pyTruthyStrOpt exTaskML.ctrl_token then 1 else 0))) [[0, 0]]).getD i []) :=
  C6_multi_label_mean_along_labels exModelML "m" exTaskML [[7, 8]] [[0, 0]]
    id rfl rfl rfl rfl

/-- Claim C7: `configure_optimizers` splits the named parameters into two
groups by whether the name contains a `no_decay` marker: each parameter
lands in exactly one group, never both, and both groups are built with
weight decay 0.0. -/
theorem C7_param_group_partition (named_parameters : List (String × Nat))
    (hnd : (named_parameters.map Prod.snd).Nodup) :
    ∃ g0 g1, optimizer_grouped_parameters named_parameters = [g0, g1] ∧
      g0.weight_decay = 0 ∧ g1.weight_decay = 0 ∧
      ∀ np ∈ named_parameters,
        (np.2 ∈ g0.params ∧ np.2 ∉ g1.params) ∨
        (np.2 ∈ g1.params ∧ np.2 ∉ g0.params) := by
  refine ⟨_, _, rfl, rfl, rfl, ?_⟩
  intro np hmem
  by_cases hp : no_decay.any (fun nd => pyInStr nd np.1) = true
  · right
    constructor
    · exact List.mem_map.mpr ⟨np, List.mem_filter.mpr ⟨hmem, hp⟩, rfl⟩
    · intro hcon
      obtain ⟨nq, hnq, hq2⟩ := List.mem_map.mp hcon
      obtain ⟨hnqmem, hnqp⟩ := List.mem_filter.mp hnq
      have heq : nq = np := List.inj_on_of_nodup_map hnd hnqmem hmem hq2
      subst heq
      simp [hp] at hnqp
  · left
    constructor
    · exact List.mem_map.mpr ⟨np, List.mem_filter.mpr ⟨hmem, by simp [hp]⟩, rfl⟩
    · intro hcon
      obtain ⟨nq, hnq, hq2⟩ := List.mem_map.mp hcon
      obtain ⟨hnqmem, hnqp⟩ := List.mem_filter.mp hnq
      have heq : nq = np := List.inj_on_of_nodup_map hnd hnqmem hmem hq2
      subst heq
      exact hp hnqp

/-- Concrete instantiation of `C7_param_group_partition` on three named
parameters (a plain weight, a bias, and a LayerNorm weight). -/
theorem C7_param_group_partition_witness :
    ∃ g0 g1, optimizer_grouped_parameters exNamedParams = [g0, g1] ∧
      g0.weight_decay = 0 ∧ g1.weight_decay = 0 ∧
      ∀ np ∈ exNamedParams,
        (np.2 ∈ g0.params ∧ np.2 ∉ g1.params) ∨
        (np.2 ∈ g1.params ∧ np.2 ∉ g0.params) :=
  C7_param_group_partition exNamedParams (by decide)

/-- Claim C8: the encoder adapter `forward` runs the shared encoder once
and returns, per example, the last-layer hidden-state vector at position
`token_idx`; and the per-task encoding index computed at line 99 is 1 when
the task declares a (non-empty) control token and 0 when it declares
none. -/
theorem C8_forward_position_and_ctrl_index
    (enc : List (List Nat) → List (List (List ℚ)))
    (x : List (List Nat)) (token_idx : Nat) (t : TaskFamily) :
    (forward enc x token_idx).length = (enc x).length ∧
    (∀ i, i < (enc x).length →
      (forward enc x token_idx).getD i [] =
        ((enc x).getD i []).getD token_idx []) ∧
    ((∃ s, t.ctrl_token = some s ∧ s ≠ "") →
      (if pyTruthyStrOpt t.ctrl_token then 1 else 0) = 1) ∧
    (t.ctrl_token = none →
      (if pyTruthyStrOpt t.ctrl_token then 1 else 0) = 0) := by
  refine ⟨by simp [forward], ?_, ?_, ?_⟩
  · intro i hi
    simp only [forward]
    rw [List.getD_eq_getElem _ _ (by simpa using hi), List.getElem_map,
      List.getD_eq_getElem _ _ hi]
  · rintro ⟨s, hs, hne⟩
    rw [hs]
    simp [pyTruthyStrOpt, hne]
  · intro h
    rw [h]
    rfl

/-- Concrete instantiation of `C8_forward_position_and_ctrl_index`:
position selection on `exEncoder` and index 1 for the control-token task
`exTaskIR`. -/
theorem C8_forward_position_and_ctrl_index_witness :
    (forward exEncoder [[3, 4]] 1).getD 0 [] =
      ((exEncoder [[3, 4]]).getD 0 []).getD 1 [] ∧
    (if pyTruthyStrOpt exTaskIR.ctrl_token then 1 else 0) = 1 :=
  ⟨(C8_forward_position_and_ctrl_index exEncoder [[3, 4]] 1 exTaskIR).2.1 0
      (by simp [exEncoder]),
    (C8_forward_position_and_ctrl_index exEncoder [[3, 4]] 1 exTaskIR).2.2.1
      ⟨"[A]", rfl, by decide⟩⟩

/-- Claim C9: on every checkpoint event the persistence hook exports the
encoder weights to `<save_dir>/<name>/<version>/checkpoints/model/` and
the tokenizer configuration and raw vocabulary to
`<save_dir>/<name>/<version>/checkpoints/tokenizer/`, the paths being a
pure function of the logger's save directory, name and version. -/
theorem C9_checkpoint_export_layout (logger : LoggerInfo) :
    on_save_checkpoint logger =
      [ (.encoderWeights, ckptDir logger ++ "model/"),
        (.tokenizerConfig, ckptDir logger ++ "tokenizer/"),
        (.tokenizerVocabulary, ckptDir logger ++ "tokenizer/") ] := by
  simp only [on_save_checkpoint, ckptDir, String.append_assoc]
  rfl

/-- The loss loop never reads the `use_ctrl_tokens` flag. -/
theorem calcLossSteps_flag_indep (d : List (String × TaskFamily))
    (hs : List (String × (List (List ℚ) → List (List ℚ))))
    (enc : List (List Nat) → List (List (List ℚ))) (b1 b2 : Bool) :
    ∀ batch, calcLossSteps ⟨d, hs, enc, b1⟩ batch =
      calcLossSteps ⟨d, hs, enc, b2⟩ batch := by
  intro batch
  induction batch with
  | nil => rfl
  | cons hd tl ih =>
    obtain ⟨name, b⟩ := hd
    simp only [calcLossSteps]
    rw [show taskStep ⟨d, hs, enc, b1⟩ name b =
      taskStep ⟨d, hs, enc, b2⟩ name b from rfl, ih]

/-- Claim C10: the encoding-position selection is independent of the
`use_ctrl_tokens` constructor flag: `calc_loss` computes identically for
the driver's default (`use_ctrl_tokens=False`, under which the vocabulary
extension leaves tokenizer and embedding matrix untouched) and for
`use_ctrl_tokens=True`, and a task declaring a control token is encoded
at position 1 even under the default flag. -/
theorem C10_position_ignores_use_ctrl_tokens
    (d : List (String × TaskFamily))
    (hs : List (String × (List (List ℚ) → List (List ℚ))))
    (enc : List (List Nat) → List (List (List ℚ)))
    (batch : List (String × Payload)) :
    calc_loss ⟨d, hs, enc, main_use_ctrl_tokens⟩ batch =
      calc_loss ⟨d, hs, enc, true⟩ batch ∧
    (∀ tasks tok emb fresh,
      extend_vocab main_use_ctrl_tokens tasks tok emb fresh = (tok, emb)) ∧
    (∀ name task q p n, pyDictGet d name = some task →
      pyTruthyStrOpt task.ctrl_token = true →
      task.type ≠ "classification" →
      taskStep ⟨d, hs, enc, main_use_ctrl_tokens⟩ name (.triplet q p n) =
        some (task.lossTriplet (forward enc q 1) (forward enc p 1)
          (forward enc n 1))) := by
  refine ⟨?_, fun tasks tok emb fresh => rfl, ?_⟩
  · simp only [calc_loss,
      calcLossSteps_flag_indep d hs enc main_use_ctrl_tokens true batch]
  · intro name task q p n htask hct htype
    simp only [taskStep, htask, if_pos htype, hct, if_true]

/-- Concrete instantiation of `C10_position_ignores_use_ctrl_tokens`: the
control-token task `"a"` of `exTaskDict` is encoded at position 1 even
though the model carries the driver's default `use_ctrl_tokens=False`. -/
theorem C10_position_ignores_use_ctrl_tokens_witness :
    taskStep ⟨exTaskDict, mkHeads exTaskDict, exEncoder, main_use_ctrl_tokens⟩
        "a" (.triplet [[10, 20]] [[1, 2]] [[3, 4]]) =
      some (exTaskIR.lossTriplet (forward exEncoder [[10, 20]] 1)
        (forward exEncoder [[1, 2]] 1) (forward exEncoder [[3, 4]] 1)) :=
  (C10_position_ignores_use_ctrl_tokens exTaskDict (mkHeads exTaskDict)
      exEncoder exBatch).2.2 "a" exTaskIR [[10, 20]] [[1, 2]] [[3, 4]]
    rfl (by decide) (by decide)
